import Mathlib

/-!
Shallow embedding of the Ken Burns documentary-video pipeline
(`src/visuals.py`, `src/editor.py`) and proofs of its specified
properties.

Durations, zoom factors, pan offsets and audio amplitudes are modelled
as exact rationals; Python `int(...)` truncation toward zero is modelled
by `pyInt`; Python's `random` module is modelled as an explicit stream
of pre-drawn outcomes (`Rng`) threaded through the functions, mirroring
where the code calls `random.choice` / `random.uniform`; a Python
exception raised and caught is modelled with `Except` / explicit
fallback branches.
-/

namespace Herodo

/-- Target output width in pixels (`visuals.TARGET_WIDTH`). -/
def TARGET_WIDTH : Nat := 1080

/-- Target output height in pixels (`visuals.TARGET_HEIGHT`). -/
def TARGET_HEIGHT : Nat := 1920

/-- Background music volume fraction (`editor.MUSIC_VOLUME = 0.1`). -/
def MUSIC_VOLUME : ℚ := 1/10

/-- Maximum pan distance as a fraction of the image dimension
(`max_pan_percent = 0.15` in `visuals._calculate_pan`). -/
def max_pan_percent : ℚ := 15/100

/-- Python `int(x)` on a rational: truncation toward zero. -/
def pyInt (q : ℚ) : ℤ := if 0 ≤ q then ⌊q⌋ else ⌈q⌉

/-- Explicit stream of pre-drawn random outcomes standing for Python's
global `random` state: `dirIdx` feeds `random.choice` (as indices into
the option list), `unis` feeds `random.uniform` (as samples in [0,1]). -/
structure Rng where
  dirIdx : List ℕ
  unis : List ℚ
deriving DecidableEq

/-- An exhausted random stream (used for concrete test inputs). -/
def emptyRng : Rng := ⟨[], []⟩

/-- Model of `random.choice(options)`: consume one index draw. -/
def random_choice (options : List String) (rng : Rng) : String × Rng :=
  match rng.dirIdx with
  | [] => (options.getD 0 "center", rng)
  | i :: rest => (options.getD (i % options.length) "center", ⟨rest, rng.unis⟩)

/-- Model of `random.uniform(a, b)`: consume one sample draw. -/
def random_uniform (a b : ℚ) (rng : Rng) : ℚ × Rng :=
  match rng.unis with
  | [] => (a, rng)
  | u :: rest => (a + (b - a) * u, ⟨rng.dirIdx, rest⟩)

/-- The five concrete pan directions the code chooses among
(`random.choice(["left", "right", "up", "down", "center"])`). -/
def pan_direction_choices : List String :=
  ["left", "right", "up", "down", "center"]

/-- Pipeline error taxonomy: `emptyInput` and `noValidClips` are the two
`ValueError`s raised by `create_visual_sequence`; `decodeError` stands
for a PIL open/decode failure; `invalidArgument` is the spec's
bad-argument error (never produced by the code). -/
inductive PipelineError where
  | emptyInput
  | noValidClips
  | decodeError
  | invalidArgument
deriving DecidableEq

/-- A source image at the decode boundary: its pixel dimensions and
whether opening/decoding the file succeeds.  A successfully decoded
raster image always has positive dimensions (`pos`). -/
structure ImageData where
  width : Nat
  height : Nat
  decodes : Bool
  pos : decodes = true → 0 < width ∧ 0 < height

/-- A decodable 1080x1920 test image. -/
def goodImage : ImageData := ⟨1080, 1920, true, fun _ => by norm_num⟩

/-- An image whose decode fails. -/
def badImage : ImageData := ⟨100, 100, false, fun _ => by norm_num⟩

/-- The image produced by cropping/resizing to 1080x1920. -/
def targetImage : ImageData :=
  ⟨TARGET_WIDTH, TARGET_HEIGHT, true, fun _ => by decide⟩

/-- Model of `visuals._crop_to_vertical`: fails when the image does not
decode; otherwise reframes to the target aspect ratio.  If the aspect
ratio already matches within 1% and the dimensions are exactly the
target ones the original image is returned, otherwise the image is
center-cropped/resized to exactly `TARGET_WIDTH x TARGET_HEIGHT`. -/
def crop_to_vertical (img : ImageData) : Except PipelineError ImageData :=
  if img.decodes = true then
    let target_aspect : ℚ := (TARGET_WIDTH : ℚ) / (TARGET_HEIGHT : ℚ)
    let img_aspect : ℚ := (img.width : ℚ) / (img.height : ℚ)
    if |img_aspect - target_aspect| < 1/100 then
      if img.width = TARGET_WIDTH ∧ img.height = TARGET_HEIGHT then
        Except.ok img
      else
        Except.ok targetImage
    else
      Except.ok targetImage
  else
    Except.error PipelineError.decodeError

/-- Model of `visuals._calculate_pan`: pan offset in pixels for a given
direction; an unrecognized direction falls through to the random
diagonal branch, which draws two uniform samples. -/
def calculate_pan (img_width img_height : Nat) (direction : String)
    (start_zoom end_zoom : ℚ) (rng : Rng) : (ℚ × ℚ) × Rng :=
  if direction = "center" then ((0, 0), rng)
  else if direction = "left" then
    ((-(img_width : ℚ) * max_pan_percent, 0), rng)
  else if direction = "right" then
    (((img_width : ℚ) * max_pan_percent, 0), rng)
  else if direction = "up" then
    ((0, -(img_height : ℚ) * max_pan_percent), rng)
  else if direction = "down" then
    ((0, (img_height : ℚ) * max_pan_percent), rng)
  else
    let ux := random_uniform (-(img_width : ℚ) * max_pan_percent)
      ((img_width : ℚ) * max_pan_percent) rng
    let uy := random_uniform (-(img_height : ℚ) * max_pan_percent)
      ((img_height : ℚ) * max_pan_percent) ux.2
    ((ux.1, uy.1), uy.2)

/-- The once-resolved parameters a Ken Burns clip closes over: the
normalized image dimensions, the clip duration, the zoom range and the
resolved pan vector.  The per-frame function reads only these. -/
structure KenBurnsClip where
  img_width : Nat
  img_height : Nat
  duration : ℚ
  start_zoom : ℚ
  end_zoom : ℚ
  pan_x : ℚ
  pan_y : ℚ
deriving DecidableEq

/-- Model of `visuals.create_ken_burns_clip` setup: crop the image,
resolve a "random" pan direction by one `random.choice` draw, compute
the pan vector, and package the resolved parameters.  No duration
validation is performed (the code has none). -/
def create_ken_burns_clip (img : ImageData) (duration start_zoom end_zoom : ℚ)
    (pan_direction : String) (rng : Rng) :
    Except PipelineError (KenBurnsClip × Rng) :=
  match crop_to_vertical img with
  | Except.error e => Except.error e
  | Except.ok cropped =>
    let resolved :=
      if pan_direction = "random" then random_choice pan_direction_choices rng
      else (pan_direction, rng)
    let pan := calculate_pan cropped.width cropped.height resolved.1
      start_zoom end_zoom resolved.2
    Except.ok (⟨cropped.width, cropped.height, duration, start_zoom, end_zoom,
      pan.1.1, pan.1.2⟩, pan.2)

/-- Smoothstep easing, exactly line 66 of `visuals.py`:
`progress * progress * (3.0 - 2.0 * progress)`. -/
def smoothstep (p : ℚ) : ℚ := p * p * (3 - 2 * p)

/-- Normalized clip progress, line 64: `min(1.0, t / duration)`. -/
def clipProgress (duration t : ℚ) : ℚ := min 1 (t / duration)

/-- Interpolated zoom at time `t`, line 67:
`start_zoom + (end_zoom - start_zoom) * eased_progress`. -/
def KenBurnsClip.zoomAt (c : KenBurnsClip) (t : ℚ) : ℚ :=
  c.start_zoom + (c.end_zoom - c.start_zoom) * smoothstep (clipProgress c.duration t)

/-- Interpolated pan offset at time `t`, lines 70-71:
`(pan_x * eased_progress, pan_y * eased_progress)`. -/
def KenBurnsClip.panAt (c : KenBurnsClip) (t : ℚ) : ℚ × ℚ :=
  (c.pan_x * smoothstep (clipProgress c.duration t),
   c.pan_y * smoothstep (clipProgress c.duration t))

/-- A rendered frame: its pixel dimensions and the source crop
rectangle it was resampled from (`none` = solid black frame).  For a
fixed source image the crop rectangle determines the pixels. -/
structure Frame where
  width : Nat
  height : Nat
  rect : Option (ℤ × ℤ × ℤ × ℤ)
deriving DecidableEq

/-- The solid black frame of target dimensions
(`np.zeros((TARGET_HEIGHT, TARGET_WIDTH, 3))`). -/
def blackFrame : Frame := ⟨TARGET_WIDTH, TARGET_HEIGHT, none⟩

/-- The clamped crop window `(x1, y1, x2, y2)` computed by `make_frame`
(lines 73-85 of `visuals.py`). -/
def cropRect (c : KenBurnsClip) (t : ℚ) : ℤ × ℤ × ℤ × ℤ :=
  let eased := smoothstep (clipProgress c.duration t)
  let zoom := c.zoomAt t
  let crop_width := pyInt ((c.img_width : ℚ) / zoom)
  let crop_height := pyInt ((c.img_height : ℚ) / zoom)
  let center_x := (c.img_width : ℚ) / 2 + c.pan_x * eased
  let center_y := (c.img_height : ℚ) / 2 + c.pan_y * eased
  let x1 := max 0 (pyInt (center_x - (crop_width : ℚ) / 2))
  let y1 := max 0 (pyInt (center_y - (crop_height : ℚ) / 2))
  let x2 := min (c.img_width : ℤ) (pyInt (center_x + (crop_width : ℚ) / 2))
  let y2 := min (c.img_height : ℤ) (pyInt (center_y + (crop_height : ℚ) / 2))
  (x1, y1, x2, y2)

/-- Model of `make_frame(t)` (lines 62-100 of `visuals.py`).  `none`
models a Python `ZeroDivisionError`: `t / duration` with duration 0, or
`img.width / current_zoom` with zoom 0.  Otherwise: if the clamped crop
window is degenerate (either guard of lines 88-93) the frame is solid
black; else the window is resampled to the target dimensions. -/
def makeFrame (c : KenBurnsClip) (t : ℚ) : Option Frame :=
  if c.duration = 0 then none
  else if c.zoomAt t = 0 then none
  else if (cropRect c t).2.2.2 ≤ (cropRect c t).2.1 ∨
      (cropRect c t).2.2.1 ≤ (cropRect c t).1 then some blackFrame
  else if ((cropRect c t).2.2.2 - (cropRect c t).2.1) *
        ((cropRect c t).2.2.1 - (cropRect c t).1) = 0 ∨
      (cropRect c t).2.2.2 - (cropRect c t).2.1 = 0 ∨
      (cropRect c t).2.2.1 - (cropRect c t).1 = 0 then some blackFrame
  else some ⟨TARGET_WIDTH, TARGET_HEIGHT,
    some ((cropRect c t).1, (cropRect c t).2.1,
      (cropRect c t).2.2.1, (cropRect c t).2.2.2)⟩

/-- Clip-building loop of `visuals.create_visual_sequence` (lines
139-161): per image draw `start_zoom ∈ [1.0, 1.1)`, `end_zoom ∈
[1.2, 1.4)` and a direction, build the Ken Burns clip, and on failure
log and skip the image, continuing with the rest. -/
def create_visual_sequence_clips (image_paths : List ImageData)
    (duration_per_image : ℚ) (rng : Rng) : List KenBurnsClip × Rng :=
  match image_paths with
  | [] => ([], rng)
  | img :: rest =>
    let u1 := random_uniform 1 (11/10) rng
    let u2 := random_uniform (6/5) (7/5) u1.2
    let ch := random_choice pan_direction_choices u2.2
    match create_ken_burns_clip img duration_per_image u1.1 u2.1 ch.1 ch.2 with
    | Except.error _ => create_visual_sequence_clips rest duration_per_image ch.2
    | Except.ok p =>
      let restClips := create_visual_sequence_clips rest duration_per_image p.2
      (p.1 :: restClips.1, restClips.2)

/-- Model of `visuals.create_visual_sequence`: reject an empty image
list, allocate `total_duration / len(image_paths)` to each image, build
the clips skipping failures, reject an empty clip list, and return the
concatenation (represented by the clip list itself). -/
def create_visual_sequence (image_paths : List ImageData)
    (total_duration : ℚ) (rng : Rng) :
    Except PipelineError (List KenBurnsClip) :=
  if image_paths.isEmpty then Except.error PipelineError.emptyInput
  else
    let duration_per_image := total_duration / (image_paths.length : ℚ)
    let clips := (create_visual_sequence_clips image_paths duration_per_image rng).1
    if clips.isEmpty then Except.error PipelineError.noValidClips
    else Except.ok clips

/-- Total duration of a concatenated clip sequence
(`concatenate_videoclips`: the sum of the clip durations). -/
def sequenceDuration (clips : List KenBurnsClip) : ℚ :=
  (clips.map KenBurnsClip.duration).sum

/-- Duration of `clip.subclip(t_start, t_end)` in moviepy. -/
def subclip_duration (clip_duration t_start t_end : ℚ) : ℚ :=
  t_end - t_start

/-- `num_loops = int(audio_duration / video_duration) + 1`
(line 49 of `editor.py`, and the same formula at line 120). -/
def num_loops (short_duration target_duration : ℚ) : ℤ :=
  pyInt (target_duration / short_duration) + 1

/-- Duration of the video after looping it `num_loops` times
(`concatenate_videoclips([video_clip] * num_loops)`). -/
def looped_video_duration (video_duration audio_duration : ℚ) : ℚ :=
  (num_loops video_duration audio_duration : ℚ) * video_duration

/-- Video duration emitted by `editor.compose_video` (lines 45-58):
loop-then-trim when the video is shorter than the audio, trim when
longer, leave unchanged when equal. -/
def synced_video_duration (video_duration audio_duration : ℚ) : ℚ :=
  if video_duration < audio_duration then
    subclip_duration (looped_video_duration video_duration audio_duration)
      0 audio_duration
  else if video_duration > audio_duration then
    subclip_duration video_duration 0 audio_duration
  else video_duration

/-- The render job `compose_video` hands to `write_videofile`: the
synchronized video duration, the narration audio duration, the enforced
output dimensions and the fixed frame rate. -/
structure RenderJob where
  videoDuration : ℚ
  audioDuration : ℚ
  width : Nat
  height : Nat
  fps : Nat
deriving DecidableEq

/-- Model of the duration-synchronization core of
`editor.compose_video`. -/
def compose_video_job (video_duration audio_duration : ℚ) : RenderJob :=
  ⟨synced_video_duration video_duration audio_duration, audio_duration,
    1080, 1920, 24⟩

/-- A decoded audio waveform: duration plus amplitude at each time. -/
structure AudioClip where
  duration : ℚ
  sample : ℚ → ℚ

/-- `clip.subclip(t_start, t_end)` on audio. -/
def AudioClip.subclip (c : AudioClip) (t_start t_end : ℚ) : AudioClip :=
  ⟨t_end - t_start, fun t => c.sample (t + t_start)⟩

/-- `clip.volumex(factor)`: scale every sample. -/
def AudioClip.volumex (c : AudioClip) (factor : ℚ) : AudioClip :=
  ⟨c.duration, fun t => factor * c.sample t⟩

/-- Sequential concatenation of two audio clips. -/
def concatAudioPair (a b : AudioClip) : AudioClip :=
  ⟨a.duration + b.duration,
   fun t => if t < a.duration then a.sample t else b.sample (t - a.duration)⟩

/-- `concatenate_audioclips(clips)`. -/
def concatenate_audioclips (clips : List AudioClip) : AudioClip :=
  match clips with
  | [] => ⟨0, fun _ => 0⟩
  | c :: rest => concatAudioPair c (concatenate_audioclips rest)

/-- `CompositeAudioClip(clips)`: additive mix, duration the maximum. -/
def CompositeAudioClip (clips : List AudioClip) : AudioClip :=
  ⟨(clips.map AudioClip.duration).foldr max 0,
   fun t => (clips.map (fun c => c.sample t)).sum⟩

/-- The music clip after the looping step of
`editor._add_background_music` (lines 119-122):
`concatenate_audioclips([music_clip] * num_loops)`. -/
def looped_music (music : AudioClip) (duration : ℚ) : AudioClip :=
  concatenate_audioclips
    (List.replicate (num_loops music.duration duration).toNat music)

/-- A video clip at the editing stage: its duration and its attached
audio track, if any. -/
structure VideoWithAudio where
  duration : ℚ
  audio : Option AudioClip

/-- Model of `editor._add_background_music`.  `music = none` models a
failure to load the music file (`AudioFileClip` raising): the exception
is caught and the video is returned unchanged.  A zero music duration
makes `int(duration / music_clip.duration)` raise `ZeroDivisionError`,
also caught, returning the video unchanged.  Otherwise the music is
loop-trimmed to `duration`, attenuated to `MUSIC_VOLUME`, and mixed
with the existing audio track. -/
def add_background_music (video : VideoWithAudio) (music : Option AudioClip)
    (duration : ℚ) : VideoWithAudio :=
  match music with
  | none => video
  | some music_clip =>
    if music_clip.duration < duration then
      if music_clip.duration = 0 then video
      else
        let processed :=
          ((looped_music music_clip duration).subclip 0 duration).volumex
            MUSIC_VOLUME
        match video.audio with
        | some a => ⟨video.duration, some (CompositeAudioClip [a, processed])⟩
        | none => ⟨video.duration, some processed⟩
    else
      let processed :=
        (music_clip.subclip 0 duration).volumex MUSIC_VOLUME
      match video.audio with
      | some a => ⟨video.duration, some (CompositeAudioClip [a, processed])⟩
      | none => ⟨video.duration, some processed⟩

/-- The random draws `create_ken_burns_clip` consumes at setup: one
direction-choice draw when the direction is "random", none for the five
fixed directions, and two uniform draws for the diagonal fallback.
Frames depend on the random state only through these draws. -/
def setupDraws (pan_direction : String) (rng : Rng) : List ℕ × List ℚ :=
  if pan_direction = "random" then (rng.dirIdx.take 1, [])
  else if pan_direction ∈ pan_direction_choices then ([], [])
  else ([], rng.unis.take 2)

/-- The clip part of a clip-setup result, forgetting the consumed
random state. -/
def clip_result (r : Except PipelineError (KenBurnsClip × Rng)) :
    Except PipelineError KenBurnsClip := r.map Prod.fst

/-- A 10 s narration test track at constant half amplitude. -/
def narrationTest : AudioClip := ⟨10, fun _ => 1/2⟩

/-- A 3 s music test track at constant full amplitude. -/
def musicTest : AudioClip := ⟨3, fun _ => 1⟩

/-- A 10 s test video carrying the narration track. -/
def videoTest : VideoWithAudio := ⟨10, some narrationTest⟩

/-! ### Helper lemmas -/

theorem pyInt_of_nonneg (q : ℚ) (h : 0 ≤ q) : pyInt q = ⌊q⌋ := by
  simp [pyInt, h]

/-- The loop count of the loop-then-trim policy always produces a
strictly longer track than the target duration. -/
theorem num_loops_mul_gt (L d : ℚ) (hL : 0 < L) (hd : 0 < d) :
    d < (num_loops L d : ℚ) * L := by
  have hq : 0 ≤ d / L := le_of_lt (div_pos hd hL)
  have hfl : d / L < (⌊d / L⌋ : ℚ) + 1 := Int.lt_floor_add_one (d / L)
  have hmul : (d / L) * L < ((⌊d / L⌋ : ℚ) + 1) * L :=
    mul_lt_mul_of_pos_right hfl hL
  rw [div_mul_cancel₀ d (ne_of_gt hL)] at hmul
  calc d < ((⌊d / L⌋ : ℚ) + 1) * L := hmul
    _ = (num_loops L d : ℚ) * L := by
        rw [num_loops, pyInt_of_nonneg _ hq]; push_cast; ring

theorem clipProgress_zero (d : ℚ) : clipProgress d 0 = 0 := by
  simp [clipProgress]

theorem clipProgress_self (d : ℚ) (hd : d ≠ 0) : clipProgress d d = 1 := by
  simp [clipProgress, div_self hd]

theorem smoothstep_zero : smoothstep 0 = 0 := by norm_num [smoothstep]

theorem smoothstep_one : smoothstep 1 = 1 := by norm_num [smoothstep]

theorem clipProgress_mem (d t : ℚ) (hd : 0 < d) (ht : 0 ≤ t) :
    0 ≤ clipProgress d t ∧ clipProgress d t ≤ 1 :=
  ⟨le_min (by norm_num) (div_nonneg ht (le_of_lt hd)), min_le_left _ _⟩

theorem smoothstep_mem (p : ℚ) (h0 : 0 ≤ p) (h1 : p ≤ 1) :
    0 ≤ smoothstep p ∧ smoothstep p ≤ 1 := by
  constructor <;> simp only [smoothstep] <;>
    nlinarith [sq_nonneg p, sq_nonneg (1 - p),
      mul_nonneg (sq_nonneg (1 - p)) (by linarith : (0:ℚ) ≤ 1 + 2 * p)]

theorem zoomAt_pos (c : KenBurnsClip) (t : ℚ) (ht : 0 ≤ t)
    (hd : 0 < c.duration) (hsz : 1 ≤ c.start_zoom)
    (hez : c.start_zoom ≤ c.end_zoom) : 0 < c.zoomAt t := by
  obtain ⟨hp0, hp1⟩ := clipProgress_mem c.duration t hd ht
  obtain ⟨hs0, _⟩ := smoothstep_mem _ hp0 hp1
  have hnn : 0 ≤ (c.end_zoom - c.start_zoom) * smoothstep (clipProgress c.duration t) :=
    mul_nonneg (by linarith) hs0
  simp only [KenBurnsClip.zoomAt]
  linarith

theorem crop_to_vertical_ok (img : ImageData) (h : img.decodes = true) :
    ∃ c, crop_to_vertical img = Except.ok c ∧
      c.width = TARGET_WIDTH ∧ c.height = TARGET_HEIGHT := by
  simp only [crop_to_vertical]
  rw [if_pos h]
  by_cases h1 : |(img.width : ℚ) / (img.height : ℚ) -
      (TARGET_WIDTH : ℚ) / (TARGET_HEIGHT : ℚ)| < 1/100
  · rw [if_pos h1]
    by_cases h2 : img.width = TARGET_WIDTH ∧ img.height = TARGET_HEIGHT
    · rw [if_pos h2]
      exact ⟨img, rfl, h2.1, h2.2⟩
    · rw [if_neg h2]
      exact ⟨targetImage, rfl, rfl, rfl⟩
  · rw [if_neg h1]
    exact ⟨targetImage, rfl, rfl, rfl⟩

theorem create_ken_burns_clip_ok (img : ImageData) (d sz ez : ℚ)
    (dir : String) (rng : Rng) (h : img.decodes = true) :
    ∃ clip rng2, create_ken_burns_clip img d sz ez dir rng =
      Except.ok (clip, rng2) ∧ clip.duration = d ∧ clip.start_zoom = sz ∧
      clip.end_zoom = ez ∧ clip.img_width = TARGET_WIDTH ∧
      clip.img_height = TARGET_HEIGHT := by
  obtain ⟨c, hc, hw, hh⟩ := crop_to_vertical_ok img h
  simp only [create_ken_burns_clip, hc]
  exact ⟨_, _, rfl, rfl, rfl, rfl, hw, hh⟩

theorem create_ken_burns_clip_error (img : ImageData) (d sz ez : ℚ)
    (dir : String) (rng : Rng) (h : img.decodes = false) :
    create_ken_burns_clip img d sz ez dir rng =
      Except.error PipelineError.decodeError := by
  simp [create_ken_burns_clip, crop_to_vertical, h]

/-! ### Claim theorems -/

/-- C4: the easing used for zoom and pan interpolation is the
smoothstep polynomial `p^2 * (3 - 2p)`, which is monotone
non-decreasing on [0, 1] with value 0 at 0 and 1 at 1. -/
theorem c4_smoothstep_easing :
    (∀ p : ℚ, smoothstep p = p ^ 2 * (3 - 2 * p)) ∧
    (∀ sz ez d t : ℚ, KenBurnsClip.zoomAt ⟨TARGET_WIDTH, TARGET_HEIGHT, d, sz, ez, 0, 0⟩ t
      = sz + (ez - sz) * smoothstep (clipProgress d t)) ∧
    smoothstep 0 = 0 ∧ smoothstep 1 = 1 ∧
    ∀ a b : ℚ, 0 ≤ a → a ≤ b → b ≤ 1 → smoothstep a ≤ smoothstep b := by
  refine ⟨fun p => by rw [smoothstep]; ring, fun sz ez d t => rfl,
    by norm_num [smoothstep], by norm_num [smoothstep], ?_⟩
  intro a b ha hab hb1
  have hb0 : 0 ≤ b := le_trans ha hab
  have ha1 : a ≤ 1 := le_trans hab hb1
  simp only [smoothstep]
  nlinarith [mul_nonneg ha hb0, mul_nonneg (sub_nonneg.2 hab) (sub_nonneg.2 hb1),
    mul_nonneg (sub_nonneg.2 hab) (sub_nonneg.2 ha1), sq_nonneg (a - b),
    sq_nonneg (a + b), mul_nonneg (mul_nonneg ha hb0) (sub_nonneg.2 hb1)]

/-- Witness for C4 at concrete inputs. -/
theorem c4_smoothstep_easing_witness :
    smoothstep 0 = 0 ∧ smoothstep 1 = 1 ∧ smoothstep (1/4) ≤ smoothstep (1/2) :=
  ⟨c4_smoothstep_easing.2.2.1, c4_smoothstep_easing.2.2.2.1,
    c4_smoothstep_easing.2.2.2.2 (1/4) (1/2) (by norm_num) (by norm_num)
      (by norm_num)⟩

/-- C1: `compose_video` synchronizes the emitted video duration to the
narration audio duration: a shorter video is looped to strictly exceed
the narration and trimmed exactly to it, a longer video is truncated
exactly to it, an equal one is left unchanged; the emitted video is
never shorter than the narration. -/
theorem c1_compose_video_sync (v a : ℚ) (hv : 0 < v) (ha : 0 < a) :
    (v < a → a < looped_video_duration v a ∧
      (compose_video_job v a).videoDuration = a) ∧
    (v > a → (compose_video_job v a).videoDuration = a) ∧
    (v = a → (compose_video_job v a).videoDuration = v) ∧
    a ≤ (compose_video_job v a).videoDuration := by
  have hlooped : v < a → a < looped_video_duration v a := fun hlt =>
    num_loops_mul_gt v a hv ha
  refine ⟨fun hlt => ⟨hlooped hlt, ?_⟩, fun hgt => ?_, fun heq => ?_, ?_⟩
  · simp [compose_video_job, synced_video_duration, subclip_duration, hlt]
  · have hnotlt : ¬ v < a := not_lt.2 (le_of_lt hgt)
    simp [compose_video_job, synced_video_duration, subclip_duration, hnotlt, hgt]
  · subst heq
    simp [compose_video_job, synced_video_duration, subclip_duration, lt_irrefl]
  · rcases lt_trichotomy v a with hlt | heq | hgt
    · simp [compose_video_job, synced_video_duration, subclip_duration, hlt]
    · subst heq
      simp [compose_video_job, synced_video_duration, subclip_duration, lt_irrefl]
    · have hnotlt : ¬ v < a := not_lt.2 (le_of_lt hgt)
      simp [compose_video_job, synced_video_duration, subclip_duration, hnotlt, hgt]

/-- Witness for C1: a 3 s video against a 10 s narration and a 10 s
video against a 4 s narration. -/
theorem c1_compose_video_sync_witness :
    ((3 : ℚ) < 10 → 10 < looped_video_duration 3 10 ∧
      (compose_video_job 3 10).videoDuration = 10) ∧
    ((10 : ℚ) > 4 → (compose_video_job 10 4).videoDuration = 4) :=
  ⟨(c1_compose_video_sync 3 10 (by norm_num) (by norm_num)).1,
   (c1_compose_video_sync 10 4 (by norm_num) (by norm_num)).2.1⟩

theorem random_choice_mem (rng : Rng) :
    (random_choice pan_direction_choices rng).1 ∈ pan_direction_choices := by
  rcases rng with ⟨dirIdx, unis⟩
  rcases dirIdx with _ | ⟨i, rest⟩
  · simp [random_choice, pan_direction_choices]
  · have h5 : i % 5 = 0 ∨ i % 5 = 1 ∨ i % 5 = 2 ∨ i % 5 = 3 ∨ i % 5 = 4 := by
      omega
    rcases h5 with h | h | h | h | h <;>
      simp [random_choice, pan_direction_choices, h]

theorem random_choice_eq_one_of_five (rng : Rng) :
    (random_choice pan_direction_choices rng).1 = "left" ∨
    (random_choice pan_direction_choices rng).1 = "right" ∨
    (random_choice pan_direction_choices rng).1 = "up" ∨
    (random_choice pan_direction_choices rng).1 = "down" ∨
    (random_choice pan_direction_choices rng).1 = "center" := by
  simpa [pan_direction_choices] using random_choice_mem rng

/-- C3: the per-frame render of a created Ken Burns clip at t = 0 uses
zoom equal to `start_zoom` and pan offset (0, 0), and at t = duration
uses zoom equal to `end_zoom` and the full pan vector of the resolved
direction, which is 15% of the corresponding image dimension on each
panned axis. -/
theorem c3_endpoint_motion (img : ImageData) (d sz ez : ℚ) (dir : String)
    (rng : Rng) (clip : KenBurnsClip) (rng2 : Rng) (hd : 0 < d)
    (hok : create_ken_burns_clip img d sz ez dir rng = Except.ok (clip, rng2)) :
    clip.zoomAt 0 = sz ∧ clip.panAt 0 = (0, 0) ∧
    clip.zoomAt d = ez ∧ clip.panAt d = (clip.pan_x, clip.pan_y) ∧
    (dir = "center" → (clip.pan_x, clip.pan_y) = (0, 0)) ∧
    (dir = "left" → (clip.pan_x, clip.pan_y) =
      (-(clip.img_width : ℚ) * max_pan_percent, 0)) ∧
    (dir = "right" → (clip.pan_x, clip.pan_y) =
      ((clip.img_width : ℚ) * max_pan_percent, 0)) ∧
    (dir = "up" → (clip.pan_x, clip.pan_y) =
      (0, -(clip.img_height : ℚ) * max_pan_percent)) ∧
    (dir = "down" → (clip.pan_x, clip.pan_y) =
      (0, (clip.img_height : ℚ) * max_pan_percent)) ∧
    (dir = "random" → ((clip.pan_x, clip.pan_y) = (0, 0) ∨
      (clip.pan_x, clip.pan_y) = (-(clip.img_width : ℚ) * max_pan_percent, 0) ∨
      (clip.pan_x, clip.pan_y) = ((clip.img_width : ℚ) * max_pan_percent, 0) ∨
      (clip.pan_x, clip.pan_y) = (0, -(clip.img_height : ℚ) * max_pan_percent) ∨
      (clip.pan_x, clip.pan_y) = (0, (clip.img_height : ℚ) * max_pan_percent))) ∧
    max_pan_percent = 15/100 := by
  have hdec : img.decodes = true := by
    rcases hb : img.decodes with _ | _
    · rw [create_ken_burns_clip_error img d sz ez dir rng hb] at hok
      exact absurd hok (by simp)
    · rfl
  obtain ⟨c, hc, hw, hh⟩ := crop_to_vertical_ok img hdec
  simp only [create_ken_burns_clip, hc, Except.ok.injEq, Prod.mk.injEq] at hok
  obtain ⟨hclip, hrng⟩ := hok
  subst hclip
  refine ⟨?_, ?_, ?_, ?_, ?_, ?_, ?_, ?_, ?_, ?_, rfl⟩
  · simp only [KenBurnsClip.zoomAt, clipProgress_zero, smoothstep_zero]
    ring
  · simp only [KenBurnsClip.panAt, clipProgress_zero, smoothstep_zero]
    simp
  · simp only [KenBurnsClip.zoomAt, clipProgress_self d (ne_of_gt hd),
      smoothstep_one]
    ring
  · simp only [KenBurnsClip.panAt, clipProgress_self d (ne_of_gt hd),
      smoothstep_one]
    simp
  · intro hdir; subst hdir; rfl
  · intro hdir; subst hdir; rfl
  · intro hdir; subst hdir; rfl
  · intro hdir; subst hdir; rfl
  · intro hdir; subst hdir; rfl
  · intro hdir
    subst hdir
    rw [if_pos rfl]
    rcases random_choice_eq_one_of_five rng with hm | hm | hm | hm | hm <;>
      rw [hm] <;> simp [calculate_pan]

/-- Witness for C3 on a concrete leftward clip of duration 2. -/
theorem c3_endpoint_motion_witness :
    KenBurnsClip.zoomAt ⟨1080, 1920, 2, 1, 13/10, -162, 0⟩ 0 = 1 ∧
    KenBurnsClip.panAt ⟨1080, 1920, 2, 1, 13/10, -162, 0⟩ 0 = (0, 0) ∧
    KenBurnsClip.zoomAt ⟨1080, 1920, 2, 1, 13/10, -162, 0⟩ 2 = 13/10 ∧
    KenBurnsClip.panAt ⟨1080, 1920, 2, 1, 13/10, -162, 0⟩ 2 =
      ((⟨1080, 1920, 2, 1, 13/10, -162, 0⟩ : KenBurnsClip).pan_x,
       (⟨1080, 1920, 2, 1, 13/10, -162, 0⟩ : KenBurnsClip).pan_y) ∧
    ("left" = "center" →
      ((⟨1080, 1920, 2, 1, 13/10, -162, 0⟩ : KenBurnsClip).pan_x,
       (⟨1080, 1920, 2, 1, 13/10, -162, 0⟩ : KenBurnsClip).pan_y) = (0, 0)) ∧
    ("left" = "left" →
      ((⟨1080, 1920, 2, 1, 13/10, -162, 0⟩ : KenBurnsClip).pan_x,
       (⟨1080, 1920, 2, 1, 13/10, -162, 0⟩ : KenBurnsClip).pan_y) =
      (-((⟨1080, 1920, 2, 1, 13/10, -162, 0⟩ : KenBurnsClip).img_width : ℚ) *
        max_pan_percent, 0)) ∧
    ("left" = "right" →
      ((⟨1080, 1920, 2, 1, 13/10, -162, 0⟩ : KenBurnsClip).pan_x,
       (⟨1080, 1920, 2, 1, 13/10, -162, 0⟩ : KenBurnsClip).pan_y) =
      (((⟨1080, 1920, 2, 1, 13/10, -162, 0⟩ : KenBurnsClip).img_width : ℚ) *
        max_pan_percent, 0)) ∧
    ("left" = "up" →
      ((⟨1080, 1920, 2, 1, 13/10, -162, 0⟩ : KenBurnsClip).pan_x,
       (⟨1080, 1920, 2, 1, 13/10, -162, 0⟩ : KenBurnsClip).pan_y) =
      (0, -((⟨1080, 1920, 2, 1, 13/10, -162, 0⟩ : KenBurnsClip).img_height : ℚ) *
        max_pan_percent)) ∧
    ("left" = "down" →
      ((⟨1080, 1920, 2, 1, 13/10, -162, 0⟩ : KenBurnsClip).pan_x,
       (⟨1080, 1920, 2, 1, 13/10, -162, 0⟩ : KenBurnsClip).pan_y) =
      (0, ((⟨1080, 1920, 2, 1, 13/10, -162, 0⟩ : KenBurnsClip).img_height : ℚ) *
        max_pan_percent)) ∧
    ("left" = "random" →
      (((⟨1080, 1920, 2, 1, 13/10, -162, 0⟩ : KenBurnsClip).pan_x,
        (⟨1080, 1920, 2, 1, 13/10, -162, 0⟩ : KenBurnsClip).pan_y) = (0, 0) ∨
       ((⟨1080, 1920, 2, 1, 13/10, -162, 0⟩ : KenBurnsClip).pan_x,
        (⟨1080, 1920, 2, 1, 13/10, -162, 0⟩ : KenBurnsClip).pan_y) =
        (-((⟨1080, 1920, 2, 1, 13/10, -162, 0⟩ : KenBurnsClip).img_width : ℚ) *
          max_pan_percent, 0) ∨
       ((⟨1080, 1920, 2, 1, 13/10, -162, 0⟩ : KenBurnsClip).pan_x,
        (⟨1080, 1920, 2, 1, 13/10, -162, 0⟩ : KenBurnsClip).pan_y) =
        (((⟨1080, 1920, 2, 1, 13/10, -162, 0⟩ : KenBurnsClip).img_width : ℚ) *
          max_pan_percent, 0) ∨
       ((⟨1080, 1920, 2, 1, 13/10, -162, 0⟩ : KenBurnsClip).pan_x,
        (⟨1080, 1920, 2, 1, 13/10, -162, 0⟩ : KenBurnsClip).pan_y) =
        (0, -((⟨1080, 1920, 2, 1, 13/10, -162, 0⟩ : KenBurnsClip).img_height : ℚ) *
          max_pan_percent) ∨
       ((⟨1080, 1920, 2, 1, 13/10, -162, 0⟩ : KenBurnsClip).pan_x,
        (⟨1080, 1920, 2, 1, 13/10, -162, 0⟩ : KenBurnsClip).pan_y) =
        (0, ((⟨1080, 1920, 2, 1, 13/10, -162, 0⟩ : KenBurnsClip).img_height : ℚ) *
          max_pan_percent))) ∧
    max_pan_percent = 15/100 :=
  c3_endpoint_motion goodImage 2 1 (13/10) "left" emptyRng
    ⟨1080, 1920, 2, 1, 13/10, -162, 0⟩ emptyRng (by norm_num)
    (by simp [create_ken_burns_clip, crop_to_vertical, goodImage, targetImage,
      calculate_pan, max_pan_percent, TARGET_WIDTH, TARGET_HEIGHT, emptyRng]
        <;> norm_num)

/-- C8: for every time in [0, duration] the per-frame render function
is total: it always yields a frame of exactly TARGET_WIDTH x
TARGET_HEIGHT, and when the clamped crop window collapses to zero width
or height it yields the solid black frame instead of failing. -/
theorem c8_frame_total (c : KenBurnsClip) (t : ℚ) (ht0 : 0 ≤ t)
    (ht1 : t ≤ c.duration) (hd : 0 < c.duration)
    (hsz : 1 ≤ c.start_zoom) (hez : c.start_zoom ≤ c.end_zoom) :
    ∃ f, makeFrame c t = some f ∧ f.width = TARGET_WIDTH ∧
      f.height = TARGET_HEIGHT ∧
      (((cropRect c t).2.2.2 ≤ (cropRect c t).2.1 ∨
        (cropRect c t).2.2.1 ≤ (cropRect c t).1) → f = blackFrame) := by
  have hzoom : ¬ c.zoomAt t = 0 := ne_of_gt (zoomAt_pos c t ht0 hd hsz hez)
  have hdur : ¬ c.duration = 0 := ne_of_gt hd
  unfold makeFrame
  rw [if_neg hdur, if_neg hzoom]
  by_cases hdeg : (cropRect c t).2.2.2 ≤ (cropRect c t).2.1 ∨
      (cropRect c t).2.2.1 ≤ (cropRect c t).1
  · rw [if_pos hdeg]
    exact ⟨blackFrame, rfl, rfl, rfl, fun _ => rfl⟩
  · rw [if_neg hdeg]
    push_neg at hdeg
    obtain ⟨hy, hx⟩ := hdeg
    have hyp : 0 < (cropRect c t).2.2.2 - (cropRect c t).2.1 := by linarith
    have hxp : 0 < (cropRect c t).2.2.1 - (cropRect c t).1 := by linarith
    have h2 : ¬ (((cropRect c t).2.2.2 - (cropRect c t).2.1) *
          ((cropRect c t).2.2.1 - (cropRect c t).1) = 0 ∨
        (cropRect c t).2.2.2 - (cropRect c t).2.1 = 0 ∨
        (cropRect c t).2.2.1 - (cropRect c t).1 = 0) := by
      push_neg
      exact ⟨ne_of_gt (mul_pos hyp hxp), ne_of_gt hyp, ne_of_gt hxp⟩
    rw [if_neg h2]
    refine ⟨_, rfl, rfl, rfl, fun hcontra => ?_⟩
    rcases hcontra with hcy | hcx
    · exact absurd hcy (not_le.2 (by linarith))
    · exact absurd hcx (not_le.2 (by linarith))

/-- Witness for C8 on a concrete clip at t = 1. -/
theorem c8_frame_total_witness :
    ∃ f, makeFrame ⟨1080, 1920, 2, 1, 13/10, 0, 0⟩ 1 = some f ∧
      f.width = TARGET_WIDTH ∧ f.height = TARGET_HEIGHT ∧
      (((cropRect ⟨1080, 1920, 2, 1, 13/10, 0, 0⟩ 1).2.2.2 ≤
          (cropRect ⟨1080, 1920, 2, 1, 13/10, 0, 0⟩ 1).2.1 ∨
        (cropRect ⟨1080, 1920, 2, 1, 13/10, 0, 0⟩ 1).2.2.1 ≤
          (cropRect ⟨1080, 1920, 2, 1, 13/10, 0, 0⟩ 1).1) → f = blackFrame) :=
  c8_frame_total ⟨1080, 1920, 2, 1, 13/10, 0, 0⟩ 1
    (by norm_num) (show (1:ℚ) ≤ 2 by norm_num) (show (0:ℚ) < 2 by norm_num)
    (show (1:ℚ) ≤ 1 by norm_num) (show (1:ℚ) ≤ 13/10 by norm_num)

/-- The durations of the clips surviving the build loop: one clip of
duration `duration_per_image` per image that decodes. -/
theorem visual_clips_durations (dpi : ℚ) (images : List ImageData) :
    ∀ rng : Rng,
    ((create_visual_sequence_clips images dpi rng).1).map KenBurnsClip.duration
      = List.replicate (images.countP (fun i => i.decodes)) dpi := by
  induction images with
  | nil => intro rng; simp [create_visual_sequence_clips]
  | cons img rest ih =>
    intro rng
    simp only [create_visual_sequence_clips]
    rcases hdec : img.decodes with _ | _
    · rw [create_ken_burns_clip_error img dpi _ _ _ _ hdec]
      simp [List.countP_cons, hdec, ih]
    · obtain ⟨clip, rng2, hok, hdur, -, -, -, -⟩ :=
        create_ken_burns_clip_ok img dpi
          (random_uniform 1 (11/10) rng).1
          (random_uniform (6/5) (7/5) (random_uniform 1 (11/10) rng).2).1
          (random_choice pan_direction_choices
            (random_uniform (6/5) (7/5) (random_uniform 1 (11/10) rng).2).2).1
          (random_choice pan_direction_choices
            (random_uniform (6/5) (7/5) (random_uniform 1 (11/10) rng).2).2).2
          hdec
      rw [hok]
      simp [List.countP_cons, hdec, hdur, ih, List.replicate_succ]

theorem countP_decodes_split (l : List ImageData) :
    l.countP (fun i => i.decodes) + l.countP (fun i => !i.decodes) = l.length := by
  induction l with
  | nil => rfl
  | cons a t ih =>
    rcases h : a.decodes with _ | _ <;>
      simp [List.countP_cons, h, ← ih] <;> omega

/-- C2: with a non-empty image list of length N, total duration T > 0
and every image animating successfully, `create_visual_sequence`
allocates each clip exactly T/N and the concatenated sequence has total
duration exactly T (in particular within any floating tolerance). -/
theorem c2_even_split (images : List ImageData) (T : ℚ) (rng : Rng)
    (hne : images ≠ []) (hT : 0 < T)
    (hall : ∀ i ∈ images, i.decodes = true) :
    ∃ clips, create_visual_sequence images T rng = Except.ok clips ∧
      (∀ c ∈ clips, c.duration = T / (images.length : ℚ)) ∧
      sequenceDuration clips = T := by
  have hcount : images.countP (fun i => i.decodes) = images.length :=
    List.countP_eq_length.2 (fun a ha => by rw [hall a ha])
  have hlen : images.length ≠ 0 := fun h0 => hne (List.length_eq_zero.1 h0)
  have hlenQ : (images.length : ℚ) ≠ 0 := Nat.cast_ne_zero.2 hlen
  have hdur := visual_clips_durations (T / (images.length : ℚ)) images rng
  rw [hcount] at hdur
  have hclipsne :
      (create_visual_sequence_clips images (T / (images.length : ℚ)) rng).1 ≠ [] := by
    intro h0
    rw [h0] at hdur
    exact hlen (by simpa using congrArg List.length hdur.symm)
  refine ⟨(create_visual_sequence_clips images (T / (images.length : ℚ)) rng).1,
    ?_, ?_, ?_⟩
  · simp only [create_visual_sequence]
    rw [if_neg (by simp [hne]), if_neg (by simp [hclipsne])]
  · intro c hc
    exact List.eq_of_mem_replicate (hdur ▸ List.mem_map_of_mem KenBurnsClip.duration hc)
  · rw [sequenceDuration, hdur, List.sum_replicate, nsmul_eq_mul,
      mul_div_cancel₀ T hlenQ]

/-- Witness for C2: two decodable images, total duration 8. -/
theorem c2_even_split_witness :
    ∃ clips, create_visual_sequence [goodImage, goodImage] 8 emptyRng =
        Except.ok clips ∧
      (∀ c ∈ clips, c.duration = 8 / (([goodImage, goodImage] : List ImageData).length : ℚ)) ∧
      sequenceDuration clips = 8 :=
  c2_even_split [goodImage, goodImage] 8 emptyRng (by simp) (by norm_num)
    (by intro i hi; simp only [List.mem_cons, List.not_mem_nil, or_false] at hi
        rcases hi with rfl | rfl <;> rfl)

/-- C5: if k of the N images fail to animate (0 < k < N), the sequence
still succeeds — a failing image never aborts the whole composition —
and its total duration is (N-k)/N * T, not T. -/
theorem c5_partial_failure (images : List ImageData) (T : ℚ) (rng : Rng)
    (hT : 0 < T)
    (hk : 0 < images.countP (fun i => !i.decodes))
    (hkN : images.countP (fun i => !i.decodes) < images.length) :
    ∃ clips, create_visual_sequence images T rng = Except.ok clips ∧
      sequenceDuration clips =
        ((images.length : ℚ) - (images.countP (fun i => !i.decodes) : ℚ)) /
          (images.length : ℚ) * T ∧
      sequenceDuration clips ≠ T := by
  have hsplit := countP_decodes_split images
  have hlen : images.length ≠ 0 := by omega
  have hlenQ : (images.length : ℚ) ≠ 0 := Nat.cast_ne_zero.2 hlen
  have hne : images ≠ [] := fun h0 => hlen (by simp [h0])
  have hsurv : 0 < images.countP (fun i => i.decodes) := by omega
  have hdur := visual_clips_durations (T / (images.length : ℚ)) images rng
  have hclipsne :
      (create_visual_sequence_clips images (T / (images.length : ℚ)) rng).1 ≠ [] := by
    intro h0
    rw [h0] at hdur
    have hlen0 := congrArg List.length hdur.symm
    simp only [List.length_replicate, List.length_map, List.length_nil] at hlen0
    omega
  have hcastk : ((images.countP (fun i => i.decodes) : ℕ) : ℚ) =
      (images.length : ℚ) - (images.countP (fun i => !i.decodes) : ℚ) := by
    have : (images.length : ℚ) =
        (images.countP (fun i => i.decodes) : ℚ) +
        (images.countP (fun i => !i.decodes) : ℚ) := by
      rw [← Nat.cast_add, hsplit]
    linarith
  have hsum : sequenceDuration
      (create_visual_sequence_clips images (T / (images.length : ℚ)) rng).1 =
      ((images.length : ℚ) - (images.countP (fun i => !i.decodes) : ℚ)) /
        (images.length : ℚ) * T := by
    rw [sequenceDuration, hdur, List.sum_replicate, nsmul_eq_mul, hcastk]
    field_simp
  refine ⟨(create_visual_sequence_clips images (T / (images.length : ℚ)) rng).1,
    ?_, hsum, ?_⟩
  · simp only [create_visual_sequence]
    rw [if_neg (by simp [hne]), if_neg (by simp [hclipsne])]
  · rw [hsum]
    intro hbad
    have hklt : ((images.length : ℚ) - (images.countP (fun i => !i.decodes) : ℚ)) /
        (images.length : ℚ) < 1 := by
      rw [div_lt_one (by positivity)]
      have : 0 < ((images.countP (fun i => !i.decodes) : ℕ) : ℚ) := by
        exact_mod_cast hk
      linarith
    nlinarith

/-- Witness for C5: one decodable and one failing image, T = 8. -/
theorem c5_partial_failure_witness :
    ∃ clips, create_visual_sequence [goodImage, badImage] 8 emptyRng =
        Except.ok clips ∧
      sequenceDuration clips =
        ((([goodImage, badImage] : List ImageData).length : ℚ) -
          (([goodImage, badImage] : List ImageData).countP (fun i => !i.decodes) : ℚ)) /
          (([goodImage, badImage] : List ImageData).length : ℚ) * 8 ∧
      sequenceDuration clips ≠ 8 :=
  c5_partial_failure [goodImage, badImage] 8 emptyRng (by norm_num)
    (by simp [List.countP_cons, goodImage, badImage])
    (by simp [List.countP_cons, goodImage, badImage])

/-- C6: an empty image list fails with the empty-input error, and a
non-empty list in which every image fails to animate fails with the
no-valid-clips error; neither case returns a clip sequence. -/
theorem c6_empty_and_all_fail (images : List ImageData) (T : ℚ) (rng : Rng) :
    create_visual_sequence [] T rng = Except.error PipelineError.emptyInput ∧
    (images ≠ [] → (∀ i ∈ images, i.decodes = false) →
      create_visual_sequence images T rng =
        Except.error PipelineError.noValidClips) := by
  constructor
  · simp [create_visual_sequence]
  · intro hne hall
    have hcount : images.countP (fun i => i.decodes) = 0 := by
      rw [List.countP_eq_zero]
      intro a ha
      simp [hall a ha]
    have hdur := visual_clips_durations (T / (images.length : ℚ)) images rng
    rw [hcount] at hdur
    have hmap0 : List.map KenBurnsClip.duration
        (create_visual_sequence_clips images (T / (images.length : ℚ)) rng).1 = [] := by
      rw [hdur]; rfl
    have hnil : (create_visual_sequence_clips images (T / (images.length : ℚ)) rng).1 = [] :=
      List.map_eq_nil_iff.1 hmap0
    simp only [create_visual_sequence]
    rw [if_neg (by simp [hne]), if_pos (by simp [hnil])]

/-- Witness for C6: one undecodable image, T = 5. -/
theorem c6_empty_and_all_fail_witness :
    create_visual_sequence [] 5 emptyRng = Except.error PipelineError.emptyInput ∧
    create_visual_sequence [badImage] 5 emptyRng =
      Except.error PipelineError.noValidClips :=
  ⟨(c6_empty_and_all_fail [badImage] 5 emptyRng).1,
   (c6_empty_and_all_fail [badImage] 5 emptyRng).2 (by simp)
     (by intro i hi; simp only [List.mem_cons, List.not_mem_nil, or_false] at hi
         subst hi; rfl)⟩

theorem concat_replicate_duration (m : AudioClip) (n : ℕ) :
    (concatenate_audioclips (List.replicate n m)).duration = n * m.duration := by
  induction n with
  | zero => simp [concatenate_audioclips]
  | succ k ih =>
    simp only [List.replicate_succ, concatenate_audioclips, concatAudioPair, ih]
    push_cast
    ring

theorem concat_replicate_sample_bound (m : AudioClip) (n : ℕ) (B : ℚ)
    (hB : 0 ≤ B) (h : ∀ t, |m.sample t| ≤ B) :
    ∀ t, |(concatenate_audioclips (List.replicate n m)).sample t| ≤ B := by
  induction n with
  | zero => intro t; simpa [concatenate_audioclips] using hB
  | succ k ih =>
    intro t
    simp only [List.replicate_succ, concatenate_audioclips, concatAudioPair]
    by_cases hlt : t < m.duration
    · simpa [hlt] using h t
    · simpa [hlt] using ih (t - m.duration)

theorem num_loops_nonneg (L d : ℚ) (hL : 0 < L) (hd : 0 < d) :
    0 ≤ num_loops L d := by
  rw [num_loops, pyInt_of_nonneg _ (le_of_lt (div_pos hd hL))]
  have : (0:ℤ) ≤ ⌊d / L⌋ := Int.floor_nonneg.2 (le_of_lt (div_pos hd hL))
  omega

theorem looped_music_duration_gt (m : AudioClip) (d : ℚ)
    (hm : 0 < m.duration) (hd : 0 < d) : d < (looped_music m d).duration := by
  rw [looped_music, concat_replicate_duration]
  have hgt := num_loops_mul_gt m.duration d hm hd
  have htn : (((num_loops m.duration d).toNat : ℕ) : ℚ) =
      ((num_loops m.duration d : ℤ) : ℚ) := by
    exact_mod_cast Int.toNat_of_nonneg (num_loops_nonneg m.duration d hm hd)
  rw [htn]
  exact hgt

/-- C7: a background music track shorter than the narration is looped
past the narration duration and trimmed to exactly it, attenuated to
MUSIC_VOLUME = 10% so its contribution to the mixed amplitude is at
most 1/10 of full scale at every sample, and mixed additively with the
narration; a music track that fails to load leaves the narration-only
video unchanged, as does a zero-length track that would make the loop
count computation divide by zero. -/
theorem c7_background_music (video : VideoWithAudio)
    (narration music : AudioClip) (d : ℚ)
    (haud : video.audio = some narration) (hd : 0 < d)
    (hm0 : 0 < music.duration) (hml : music.duration < d)
    (hbound : ∀ t, |music.sample t| ≤ 1) :
    add_background_music video none d = video ∧
    (∀ m0 : AudioClip, m0.duration = 0 →
      add_background_music video (some m0) d = video) ∧
    d < (looped_music music d).duration ∧
    (((looped_music music d).subclip 0 d).volumex MUSIC_VOLUME).duration = d ∧
    ∃ mixed, (add_background_music video (some music) d).audio = some mixed ∧
      (∀ t, mixed.sample t = narration.sample t +
        (((looped_music music d).subclip 0 d).volumex MUSIC_VOLUME).sample t) ∧
      (∀ t, |(((looped_music music d).subclip 0 d).volumex
        MUSIC_VOLUME).sample t| ≤ 1/10) := by
  refine ⟨rfl, ?_, looped_music_duration_gt music d hm0 hd, ?_, ?_⟩
  · intro m0 h0
    simp only [add_background_music]
    rw [if_pos (by rw [h0]; exact hd), if_pos h0]
  · simp [AudioClip.subclip, AudioClip.volumex]
  · have hbig : ∀ t, |(looped_music music d).sample t| ≤ 1 := by
      rw [looped_music]
      exact concat_replicate_sample_bound music _ 1 (by norm_num) hbound
    refine ⟨CompositeAudioClip [narration,
      ((looped_music music d).subclip 0 d).volumex MUSIC_VOLUME], ?_, ?_, ?_⟩
    · simp only [add_background_music]
      rw [if_pos hml, if_neg (ne_of_gt hm0), haud]
    · intro t
      simp [CompositeAudioClip]
    · intro t
      simp only [AudioClip.volumex, AudioClip.subclip]
      rw [abs_mul]
      have h1 : |MUSIC_VOLUME| = 1/10 := by norm_num [MUSIC_VOLUME]
      rw [h1]
      have h2 := hbig (t + 0)
      nlinarith [abs_nonneg ((looped_music music d).sample (t + 0))]

/-- Witness for C7 on a 3 s full-amplitude music track against a 10 s
narration. -/
theorem c7_background_music_witness :
    add_background_music videoTest none 10 = videoTest ∧
    (∀ m0 : AudioClip, m0.duration = 0 →
      add_background_music videoTest (some m0) 10 = videoTest) ∧
    (10 : ℚ) < (looped_music musicTest 10).duration ∧
    (((looped_music musicTest 10).subclip 0 10).volumex MUSIC_VOLUME).duration = 10 ∧
    ∃ mixed, (add_background_music videoTest (some musicTest) 10).audio = some mixed ∧
      (∀ t, mixed.sample t = narrationTest.sample t +
        (((looped_music musicTest 10).subclip 0 10).volumex MUSIC_VOLUME).sample t) ∧
      (∀ t, |(((looped_music musicTest 10).subclip 0 10).volumex
        MUSIC_VOLUME).sample t| ≤ 1/10) :=
  c7_background_music videoTest narrationTest musicTest 10 rfl (by norm_num)
    (by norm_num [musicTest]) (by norm_num [musicTest])
    (fun t => by norm_num [musicTest])

theorem random_choice_take1 (opts : List String) (rng₁ rng₂ : Rng)
    (h : rng₁.dirIdx.take 1 = rng₂.dirIdx.take 1) :
    (random_choice opts rng₁).1 = (random_choice opts rng₂).1 := by
  rcases rng₁ with ⟨d₁, u₁⟩
  rcases rng₂ with ⟨d₂, u₂⟩
  rcases d₁ with _ | ⟨i, r₁⟩ <;> rcases d₂ with _ | ⟨j, r₂⟩ <;>
    simp_all [random_choice, List.take]

theorem calculate_pan_fixed (w h : ℕ) (dir : String) (sz ez : ℚ)
    (hdir : dir ∈ pan_direction_choices) (rng₁ rng₂ : Rng) :
    (calculate_pan w h dir sz ez rng₁).1 = (calculate_pan w h dir sz ez rng₂).1 := by
  simp only [pan_direction_choices, List.mem_cons, List.not_mem_nil,
    or_false] at hdir
  rcases hdir with rfl | rfl | rfl | rfl | rfl <;> rfl

theorem random_uniform_take2 (a b a2 b2 : ℚ) (rng₁ rng₂ : Rng)
    (h : rng₁.unis.take 2 = rng₂.unis.take 2) :
    (random_uniform a b rng₁).1 = (random_uniform a b rng₂).1 ∧
    (random_uniform a2 b2 (random_uniform a b rng₁).2).1 =
      (random_uniform a2 b2 (random_uniform a b rng₂).2).1 := by
  rcases rng₁ with ⟨d₁, u₁⟩
  rcases rng₂ with ⟨d₂, u₂⟩
  rcases u₁ with _ | ⟨x₁, _ | ⟨y₁, r₁⟩⟩ <;> rcases u₂ with _ | ⟨x₂, _ | ⟨y₂, r₂⟩⟩ <;>
    simp_all [random_uniform, List.take]

/-- C9: all randomized state of a clip-setup invocation (the direction
draw for "random", the two uniform draws for a diagonal direction) is
resolved exactly once at setup: two invocations whose random streams
agree on exactly those setup draws produce the same resolved clip, and
hence pointwise identical per-frame output at every time t.  In
particular the per-frame function consumes no randomness, so
re-evaluating it at the same t is deterministic. -/
theorem c9_once_resolved_determinism (img : ImageData) (d sz ez : ℚ)
    (dir : String) (rng₁ rng₂ : Rng)
    (h : setupDraws dir rng₁ = setupDraws dir rng₂) :
    clip_result (create_ken_burns_clip img d sz ez dir rng₁) =
      clip_result (create_ken_burns_clip img d sz ez dir rng₂) ∧
    ∀ c₁ r₁ c₂ r₂,
      create_ken_burns_clip img d sz ez dir rng₁ = Except.ok (c₁, r₁) →
      create_ken_burns_clip img d sz ez dir rng₂ = Except.ok (c₂, r₂) →
      ∀ t, makeFrame c₁ t = makeFrame c₂ t := by
  have hclip : clip_result (create_ken_burns_clip img d sz ez dir rng₁) =
      clip_result (create_ken_burns_clip img d sz ez dir rng₂) := by
    rcases hb : img.decodes with _ | _
    · rw [create_ken_burns_clip_error img d sz ez dir rng₁ hb,
        create_ken_burns_clip_error img d sz ez dir rng₂ hb]
    · obtain ⟨c, hc, -, -⟩ := crop_to_vertical_ok img hb
      have hpan :
          (calculate_pan c.width c.height
            (if dir = "random" then random_choice pan_direction_choices rng₁
             else (dir, rng₁)).1 sz ez
            (if dir = "random" then random_choice pan_direction_choices rng₁
             else (dir, rng₁)).2).1 =
          (calculate_pan c.width c.height
            (if dir = "random" then random_choice pan_direction_choices rng₂
             else (dir, rng₂)).1 sz ez
            (if dir = "random" then random_choice pan_direction_choices rng₂
             else (dir, rng₂)).2).1 := by
        by_cases hr : dir = "random"
        · simp only [setupDraws, if_pos hr] at h
          have h1 : rng₁.dirIdx.take 1 = rng₂.dirIdx.take 1 :=
            congrArg Prod.fst h
          have hd12 : (random_choice pan_direction_choices rng₁).1 =
              (random_choice pan_direction_choices rng₂).1 :=
            random_choice_take1 _ _ _ h1
          rw [if_pos hr, if_pos hr, hd12]
          exact calculate_pan_fixed _ _ _ _ _ (random_choice_mem rng₂) _ _
        · by_cases hmem : dir ∈ pan_direction_choices
          · rw [if_neg hr, if_neg hr]
            exact calculate_pan_fixed _ _ _ _ _ hmem _ _
          · simp only [setupDraws, if_neg hr, if_neg hmem] at h
            have h2 : rng₁.unis.take 2 = rng₂.unis.take 2 :=
              congrArg Prod.snd h
            have hne : dir ≠ "center" ∧ dir ≠ "left" ∧ dir ≠ "right" ∧
                dir ≠ "up" ∧ dir ≠ "down" := by
              simp only [pan_direction_choices, List.mem_cons,
                List.not_mem_nil, or_false] at hmem
              push_neg at hmem
              exact ⟨hmem.2.2.2.2, hmem.1, hmem.2.1, hmem.2.2.1, hmem.2.2.2.1⟩
            obtain ⟨hc1, hc2, hc3, hc4, hc5⟩ := hne
            rw [if_neg hr, if_neg hr]
            simp only [calculate_pan, if_neg hc1, if_neg hc2,
              if_neg hc3, if_neg hc4, if_neg hc5]
            obtain ⟨e1, e2⟩ := random_uniform_take2
              (-(c.width : ℚ) * max_pan_percent) ((c.width : ℚ) * max_pan_percent)
              (-(c.height : ℚ) * max_pan_percent) ((c.height : ℚ) * max_pan_percent)
              rng₁ rng₂ h2
            rw [e1, e2]
      simp only [create_ken_burns_clip, hc, clip_result, Except.map]
      rw [hpan]
  refine ⟨hclip, fun c₁ r₁ c₂ r₂ h1 h2 t => ?_⟩
  rw [h1, h2] at hclip
  simp only [clip_result, Except.map, Except.ok.injEq] at hclip
  rw [hclip]

/-- Witness for C9: a fixed "left" direction, two different random
streams with the same (empty) setup draws. -/
theorem c9_once_resolved_determinism_witness :
    clip_result (create_ken_burns_clip goodImage 2 1 (13/10) "left" emptyRng) =
      clip_result (create_ken_burns_clip goodImage 2 1 (13/10) "left"
        ⟨[3, 1], [1/2]⟩) ∧
    ∀ c₁ r₁ c₂ r₂,
      create_ken_burns_clip goodImage 2 1 (13/10) "left" emptyRng =
        Except.ok (c₁, r₁) →
      create_ken_burns_clip goodImage 2 1 (13/10) "left" ⟨[3, 1], [1/2]⟩ =
        Except.ok (c₂, r₂) →
      ∀ t, makeFrame c₁ t = makeFrame c₂ t :=
  c9_once_resolved_determinism goodImage 2 1 (13/10) "left" emptyRng
    ⟨[3, 1], [1/2]⟩ rfl

/-- C10 counterexample: calling the clip setup with the negative
duration -1 on a decodable image does not fail at all — it returns a
clip — so it does not fail with `InvalidArgument`; the code performs no
duration validation. -/
theorem c10_counterexample_no_invalid_argument :
    create_ken_burns_clip goodImage (-1) 1 (13/10) "center" emptyRng =
      Except.ok (⟨1080, 1920, -1, 1, 13/10, 0, 0⟩, emptyRng) := by
  simp [create_ken_burns_clip, crop_to_vertical, goodImage, targetImage,
    calculate_pan, TARGET_WIDTH, TARGET_HEIGHT, emptyRng]

/-- C10 amended: clip setup performs no duration validation — for any
duration (including values ≤ 0) it succeeds whenever the image decodes,
and the only failure it can produce is the decode error for
invalid/corrupt image data; `invalidArgument` is never raised. -/
theorem c10_amended_only_decode_fails (img : ImageData) (d sz ez : ℚ)
    (dir : String) (rng : Rng) :
    (img.decodes = true → ∃ clip rng2,
      create_ken_burns_clip img d sz ez dir rng = Except.ok (clip, rng2)) ∧
    ∀ e, create_ken_burns_clip img d sz ez dir rng = Except.error e →
      e = PipelineError.decodeError ∧ img.decodes = false := by
  constructor
  · intro h
    obtain ⟨clip, rng2, hok, -⟩ := create_ken_burns_clip_ok img d sz ez dir rng h
    exact ⟨clip, rng2, hok⟩
  · intro e he
    rcases hb : img.decodes with _ | _
    · rw [create_ken_burns_clip_error img d sz ez dir rng hb] at he
      injection he with h
      exact ⟨h.symm, rfl⟩
    · obtain ⟨clip, rng2, hok, -⟩ :=
        create_ken_burns_clip_ok img d sz ez dir rng hb
      rw [hok] at he
      exact absurd he (by simp)

/-- Witness for the amended C10 at the negative duration -2. -/
theorem c10_amended_only_decode_fails_witness :
    ∃ clip rng2, create_ken_burns_clip goodImage (-2) 1 (13/10) "center"
      emptyRng = Except.ok (clip, rng2) :=
  (c10_amended_only_decode_fails goodImage (-2) 1 (13/10) "center" emptyRng).1 rfl

end Herodo
